import Mathlib

/-!
Verification development for the `azure-ai-voicelive` session bridge
(`backend/app/voicelive.py`).

The Python module is shallowly embedded:

* Python `dict` values become association lists with Python dict
  semantics (`dget` = `dict.get`, `dset` = `d[k] = v` keeping the first
  position of an existing key, `dpop` = `dict.pop`);
* `json.loads`, as used by the registry functions, is modelled by
  `jsonParseObj`, a parser for flat JSON objects whose values are
  escape-free string literals (the only shape the tool-call protocol
  produces); every other input is a parse failure;
* `datetime.datetime.now(...).strftime(...)` is an environment input and
  is modelled by a `Clock` record carrying the already-formatted strings;
* the event dispatcher `VoiceLiveBridge._handle_event` and the
  function-call coordinator `VoiceLiveBridge._handle_function_call`
  become fuel-indexed functions over an explicit incoming event list
  (the remote connection stream); running out of list or fuel models the
  `asyncio.TimeoutError` of `_wait_for_event`;
* outgoing effects (`websocket.send_json`, registry invocation,
  `conversation.item.create`, `response.create`) are recorded in a trace
  of `Act` entries, together with two instrumentation markers:
  `Act.callEnter`/`Act.callExit` delimit one execution of
  `_handle_function_call`, and `Act.clearFnCall` marks the two
  assignments `function_call_in_progress = False` /
  `active_call_id = None` in the `RESPONSE_DONE` branch.
-/

namespace VoiceLive

/-! ## Python dict model (association lists, insertion ordered) -/

/-- Python dict `d.get(k)`: first (and for a real dict, only) binding of `k`. -/
def dget {α β : Type} [DecidableEq α] : List (α × β) → α → Option β
  | [], _ => none
  | (k', v) :: t, k => if k' = k then some v else dget t k

/-- Python dict assignment `d[k] = v`: replace the binding in place if present, else append. -/
def dset {α β : Type} [DecidableEq α] : List (α × β) → α → β → List (α × β)
  | [], k, v => [(k, v)]
  | (k', v') :: t, k, v => if k' = k then (k, v) :: t else (k', v') :: dset t k v

/-- Python `d.pop(k, default)` (the removal part): drop the binding of `k`. -/
def dpop {α β : Type} [DecidableEq α] : List (α × β) → α → List (α × β)
  | [], _ => []
  | (k', v) :: t, k => if k' = k then t else (k', v) :: dpop t k

/-- Python string truthiness of `x or d` for `x : Optional[str]`. -/
def pyOrStr : Option String → String → String
  | some s, d => if s = "" then d else s
  | none, d => d

/-- Concatenation of a list of strings in order (arrival order). -/
def concatAll : List String → String
  | [] => ""
  | s :: t => s ++ concatAll t

/-! ## A small model of `json.loads` for flat string-valued objects -/

def lbrace : Char := Char.ofNat 123

def rbrace : Char := Char.ofNat 125

def skipWs : List Char → List Char
  | [] => []
  | c :: t => if c = ' ' ∨ c = '\n' ∨ c = '\t' ∨ c = '\r' then skipWs t else c :: t

/-- Body of a string literal after the opening quote; no escape support
(escape-bearing inputs are outside the modelled fragment). -/
def strBody : List Char → Option (List Char × List Char)
  | [] => none
  | c :: t =>
    if c = '"' then some ([], t)
    else
      match strBody t with
      | some (s, r) => some (c :: s, r)
      | none => none

/-- One `"key": "value"` member, leading whitespace allowed. -/
def parseMember (cs : List Char) : Option ((String × String) × List Char) :=
  match skipWs cs with
  | '"' :: r1 =>
    match strBody r1 with
    | some (k, r2) =>
      match skipWs r2 with
      | ':' :: r3 =>
        match skipWs r3 with
        | '"' :: r4 =>
          match strBody r4 with
          | some (v, r5) => some ((String.mk k, String.mk v), r5)
          | none => none
        | _ => none
      | _ => none
    | none => none
  | _ => none

/-- Comma-separated members up to the closing brace. -/
def parseMembers : Nat → List Char → Option (List (String × String) × List Char)
  | 0, _ => none
  | fuel + 1, cs =>
    match parseMember cs with
    | none => none
    | some (kv, r) =>
      match skipWs r with
      | ',' :: r2 =>
        match parseMembers fuel r2 with
        | some (l, r3) => some (kv :: l, r3)
        | none => none
      | c :: r2 => if c = rbrace then some ([kv], r2) else none
      | [] => none

/-- Model of `json.loads` restricted to flat objects with string values.  Duplicate
keys follow Python semantics (last value wins, first position kept),
realised by folding with `dset`. -/
def jsonParseObj (s : String) : Option (List (String × String)) :=
  match skipWs s.toList with
  | [] => none
  | c :: r =>
    if c = lbrace then
      match skipWs r with
      | c2 :: r2 =>
        if c2 = rbrace then
          if skipWs r2 = [] then some [] else none
        else
          match parseMembers (s.length + 1) (c2 :: r2) with
          | some (l, rest) =>
            if skipWs rest = [] then
              some (l.foldl (fun acc kv => dset acc kv.1 kv.2) [])
            else none
          | none => none
      | [] => none
    else none

/-! ## Registry data and the two registered functions -/

/-- Result-mapping values (`str` and `int` fields occur in the source). -/
inductive JVal where
  | s (v : String)
  | n (v : Int)
deriving Repr, DecidableEq

abbrev ResultMap := List (String × JVal)

/-- The `Union[str, Mapping[str, Any]]` argument shape of the registry. -/
inductive FnArg where
  | str (s : String)
  | map (m : List (String × String))
deriving Repr, DecidableEq

/-- Environment input standing for `datetime.datetime.now(...)` already
formatted with the two `strftime` patterns of the source. -/
structure Clock where
  utc_time : String
  utc_date : String
  local_time : String
  local_date : String
deriving Repr, DecidableEq

/-- Embeds `VoiceLiveBridge.get_current_time` (voicelive.py lines 481-502). -/
def get_current_time (clk : Clock) (arguments : Option FnArg) : ResultMap :=
  let args : List (String × String) :=
    match arguments with
    | some (.str s) =>
      match jsonParseObj s with
      | some m => m
      | none => []
    | some (.map m) => m
    | none => []
  let timezone := (dget args "timezone").getD "local"
  if timezone.toLower = "utc" then
    [("time", .s clk.utc_time), ("date", .s clk.utc_date), ("timezone", .s "UTC")]
  else
    [("time", .s clk.local_time), ("date", .s clk.local_date), ("timezone", .s "local")]

/-- Shared tail of `get_current_weather` after argument resolution
(voicelive.py lines 516-527). -/
def weatherResult (args : List (String × String)) : ResultMap :=
  let location := (dget args "location").getD "Unknown"
  let unit := (dget args "unit").getD "celsius"
  let temperature : Int := if unit = "celsius" then 22 else 72
  [("location", .s location), ("temperature", .n temperature), ("unit", .s unit),
   ("condition", .s "Partly Cloudy"), ("humidity", .n 65), ("wind_speed", .n 10)]

/-- Embeds `VoiceLiveBridge.get_current_weather` (voicelive.py lines 504-527). -/
def get_current_weather (arguments : Option FnArg) : ResultMap :=
  match arguments with
  | some (.str s) =>
    match jsonParseObj s with
    | some m => weatherResult m
    | none => [("error", .s "Invalid arguments")]
  | some (.map m) => weatherResult m
  | none => [("error", .s "No arguments provided")]

/-! ## Events, client messages, session state -/

/-- The remote server events `_handle_event` distinguishes, carrying
exactly the attributes the handler reads (`getattr` defaults become
`Option` or the default value itself, matching each call site). -/
inductive Event where
  | sessionUpdated
  | speechStarted
  | speechStopped
  | responseCreated (response_id : Option String)
  | responseTextDelta (response_id : Option String) (delta : String)
  | responseAudioDelta (delta : Option String)
  | responseAudioDone
  | responseDone (response_id : Option String) (transcript : Option String)
  | inputTranscriptionCompleted (item_id : Option String) (transcript : String)
  | inputTranscriptionFailed (error : Option (Option String))
  | transcriptDelta (response_id : String) (item_id : String) (output_index : Int) (delta : String)
  | transcriptDone (response_id : String) (item_id : String) (output_index : Int) (transcript : String)
  | errorEvent (error : Option (Option String))
  | convItemCreatedFunctionCall (name : String) (call_id : String) (item_id : String)
  | convItemCreatedOther
  | fnCallArgsDone (call_id : String) (arguments : String)
  | unhandled
deriving Repr, DecidableEq

/-- Client-facing messages sent through `websocket.send_json`. -/
inductive ClientMsg where
  | assistantState (state : String) (function : Option String)
  | assistantAudio (audio : String) (format : String) (sampleRate : Nat)
  | assistantMessage (text : String) (transcript : Option String)
  | userTranscript (text : String) (item_id : String)
  | assistantTranscript (text : String) (response_id : String)
  | errorMsg (message : Option String)
deriving Repr, DecidableEq

/-- Observable actions of one dispatch, in program order.  `send` is a
`websocket.send_json`; `invoke`, `submitOutput` and `requestResponse`
are the registry call, `conversation.item.create` and
`response.create` of `_handle_function_call`; `callEnter`/`callExit`
and `clearFnCall` are instrumentation markers (see module comment). -/
inductive Act where
  | send (msg : ClientMsg)
  | clearFnCall
  | callEnter (call_id : String)
  | callExit (call_id : String)
  | invoke (name : String) (call_id : String) (arguments : String)
  | submitOutput (previous_item_id : String) (call_id : String) (output : ResultMap)
  | requestResponse
deriving Repr, DecidableEq

/-- The fields of `VoiceLiveSettings` the dispatcher reads, plus the
clock input of `get_current_time`. -/
structure VoiceLiveSettings where
  show_transcriptions : Bool
  sample_rate_hz : Nat
  clock : Clock
deriving Repr, DecidableEq

/-- Mutable session state of `VoiceLiveBridge` (`__init__`, lines 65-84). -/
structure BridgeState where
  function_call_in_progress : Bool
  active_call_id : Option String
  session_ready : Bool
  user_transcripts : List (String × String)
  assistant_transcripts : List ((String × String × Int) × String)
  assistant_text : List (String × String)
deriving Repr, DecidableEq

/-- Session state right after `VoiceLiveBridge.__init__`. -/
def initialState : BridgeState :=
  { function_call_in_progress := false
    active_call_id := none
    session_ready := false
    user_transcripts := []
    assistant_transcripts := []
    assistant_text := [] }

/-- The `available_functions` dispatch plus the coordinator-level fallback
for unknown names (voicelive.py lines 461-468).  The `except` clause of
the invocation cannot fire in this total model. -/
def callRegistry (cfg : VoiceLiveSettings) (name : String) (arguments : String) : ResultMap :=
  if name = "get_current_time" then get_current_time cfg.clock (some (.str arguments))
  else if name = "get_current_weather" then get_current_weather (some (.str arguments))
  else [("error", .s ("Unknown function " ++ name))]

/-! ## The event dispatcher -/

/-- All branches of `VoiceLiveBridge._handle_event` (lines 259-411)
except the function-call branch, which re-enters the coordinator and is
handled in `handleEvent` below.  Returns the updated state and the
actions in program order. -/
def dispatchStep (cfg : VoiceLiveSettings) (st : BridgeState) : Event → BridgeState × List Act
  | .sessionUpdated =>
    ({ st with session_ready := true }, [.send (.assistantState "ready" none)])
  | .speechStarted => (st, [.send (.assistantState "listening" none)])
  | .speechStopped => (st, [.send (.assistantState "processing" none)])
  | .responseCreated rid =>
    match rid with
    | some r =>
      if r = "" then (st, [])
      else ({ st with assistant_text := dset st.assistant_text r "" }, [])
    | none => (st, [])
  | .responseTextDelta rid d =>
    match rid with
    | some r =>
      if r = "" then (st, [])
      else
        let t := dset st.assistant_text r ((dget st.assistant_text r).getD "" ++ d)
        ({ st with assistant_text := t }, [])
    | none => (st, [])
  | .responseAudioDelta delta =>
    match delta with
    | some d =>
      if d = "" then (st, [])
      else
        (st, [.send (.assistantAudio d "pcm16" cfg.sample_rate_hz),
              .send (.assistantState "speaking" none)])
    | none => (st, [])
  | .responseAudioDone => (st, [.send (.assistantState "processing" none)])
  | .responseDone rid tr =>
    let popped : String × List (String × String) :=
      match rid with
      | some r =>
        if r = "" then ("", st.assistant_text)
        else ((dget st.assistant_text r).getD "", dpop st.assistant_text r)
      | none => ("", st.assistant_text)
    let finalText := if popped.1 = "" then pyOrStr tr "Assistant response completed." else popped.1
    ({ st with assistant_text := popped.2, function_call_in_progress := false, active_call_id := none },
     [.send (.assistantMessage finalText tr), .clearFnCall,
      .send (.assistantState "idle" none)])
  | .inputTranscriptionCompleted iid tr =>
    if cfg.show_transcriptions then
      match iid with
      | some i =>
        if i = "" ∨ tr = "" then (st, [])
        else
          ({ st with user_transcripts := dset st.user_transcripts i tr },
           [.send (.userTranscript tr i)])
      | none => (st, [])
    else (st, [])
  | .inputTranscriptionFailed err =>
    let message : Option String :=
      match err with
      | some m => m
      | none => none
    (st, [.send (.errorMsg (some (pyOrStr message "Unable to transcribe your last utterance.")))])
  | .transcriptDelta rid iid idx d =>
    if cfg.show_transcriptions then
      if rid = "" ∨ iid = "" ∨ idx < 0 then (st, [])
      else
        let cur := (dget st.assistant_transcripts (rid, iid, idx)).getD "" ++ d
        let t := dset st.assistant_transcripts (rid, iid, idx) cur
        ({ st with assistant_transcripts := t }, [])
    else (st, [])
  | .transcriptDone rid iid idx tr =>
    if cfg.show_transcriptions then
      let t := if tr = "" then (dget st.assistant_transcripts (rid, iid, idx)).getD "" else tr
      ({ st with assistant_transcripts := dpop st.assistant_transcripts (rid, iid, idx) },
       if t = "" then [] else [.send (.assistantTranscript t rid)])
    else (st, [])
  | .errorEvent err =>
    let message : Option String :=
      match err with
      | some m => m
      | none => some "Voice assistant error"
    (st, [.send (.errorMsg message)])
  | .convItemCreatedFunctionCall _ _ _ => (st, [])
  | .convItemCreatedOther => (st, [])
  | .fnCallArgsDone _ _ => (st, [])
  | .unhandled => (st, [])

/-! ## The function-call coordinator

`_handle_function_call` blocks on `_wait_for_event`, which forwards
every unexpected event back into `_handle_event` (`on_unhandled`), so
the four functions below are mutually recursive.  They are indexed by a
fuel that strictly decreases on every call; exhausted fuel, like an
exhausted event list, models the 10 s `asyncio.TimeoutError`. -/

mutual

/-- Embeds `VoiceLiveBridge._handle_event` (lines 259-411).  `rest` is the
not-yet-received remote stream; only the function-call branch consumes
it. -/
def handleEvent : Nat → VoiceLiveSettings → BridgeState → Event → List Event →
    BridgeState × List Act × List Event
  | 0, _, st, _, rest => (st, [], rest)
  | fuel + 1, cfg, st, e, rest =>
    match e with
    | .convItemCreatedFunctionCall name cid iid =>
      let r := handleFunctionCall fuel cfg st name cid iid rest
      (r.1, .send (.assistantState "function_call" (some name)) :: r.2.1, r.2.2)
    | _ =>
      let p := dispatchStep cfg st e
      (p.1, p.2, rest)

/-- Embeds `_wait_for_event` with `wanted_types = {RESPONSE_FUNCTION_CALL_ARGUMENTS_DONE}`
(lines 431-436): forward everything else through `_handle_event`. -/
def waitForArgs : Nat → VoiceLiveSettings → BridgeState → List Event →
    BridgeState × List Act × Option (String × String) × List Event
  | 0, _, st, evs => (st, [], none, evs)
  | _ + 1, _, st, [] => (st, [], none, [])
  | fuel + 1, cfg, st, e :: es =>
    match e with
    | .fnCallArgsDone c a => (st, [], some (c, a), es)
    | _ =>
      let r := handleEvent fuel cfg st e es
      let w := waitForArgs fuel cfg r.1 r.2.2
      (w.1, r.2.1 ++ w.2.1, w.2.2.1, w.2.2.2)

/-- Embeds `_wait_for_event` with `wanted_types = {RESPONSE_DONE}` (lines 451-456). -/
def waitForDone : Nat → VoiceLiveSettings → BridgeState → List Event →
    BridgeState × List Act × Option (Option String × Option String) × List Event
  | 0, _, st, evs => (st, [], none, evs)
  | _ + 1, _, st, [] => (st, [], none, [])
  | fuel + 1, cfg, st, e :: es =>
    match e with
    | .responseDone rid tr => (st, [], some (rid, tr), es)
    | _ =>
      let r := handleEvent fuel cfg st e es
      let w := waitForDone fuel cfg r.1 r.2.2
      (w.1, r.2.1 ++ w.2.1, w.2.2.1, w.2.2.2)

/-- Embeds `VoiceLiveBridge._handle_function_call` (lines 413-475): set the
in-progress flags, wait for the arguments, abort on timeout or call-id
mismatch, otherwise wait for the current turn to complete (processing
that completion through `_handle_event`), invoke the registry, submit
the output item and request a new turn. -/
def handleFunctionCall : Nat → VoiceLiveSettings → BridgeState → String → String → String →
    List Event → BridgeState × List Act × List Event
  | 0, _, st, _, _, _, evs => (st, [], evs)
  | fuel + 1, cfg, st, name, cid, iid, evs =>
    let st1 := { st with function_call_in_progress := true, active_call_id := some cid }
    let wa := waitForArgs fuel cfg st1 evs
    match wa.2.2.1 with
    | none =>
      -- timeout waiting for the arguments: log and return (lines 437-439)
      (wa.1, .callEnter cid :: wa.2.1 ++ [.callExit cid], wa.2.2.2)
    | some (c, args) =>
      if c = cid then
        let wd := waitForDone fuel cfg wa.1 wa.2.2.2
        let hd :=
          match wd.2.2.1 with
          | some (rid, tr) => handleEvent fuel cfg wd.1 (.responseDone rid tr) wd.2.2.2
          | none => (wd.1, [], wd.2.2.2)  -- timeout: logged, proceed (lines 458-459)
        let result := callRegistry cfg name args
        (hd.1,
         .callEnter cid :: wa.2.1 ++ wd.2.1 ++ hd.2.1 ++
           [.invoke name cid args, .submitOutput iid cid result, .requestResponse,
            .callExit cid],
         hd.2.2)
      else
        -- call id mismatch: abort without executing (lines 447-449)
        (wa.1, .callEnter cid :: wa.2.1 ++ [.callExit cid], wa.2.2.2)

end

/-- The remote-event pump `_process_events` (lines 244-257) over a
finite stream. -/
def processEvents : Nat → VoiceLiveSettings → BridgeState → List Event → BridgeState × List Act
  | 0, _, st, _ => (st, [])
  | _ + 1, _, st, [] => (st, [])
  | fuel + 1, cfg, st, e :: es =>
    let r := handleEvent fuel cfg st e es
    let p := processEvents fuel cfg r.1 r.2.2
    (p.1, r.2.1 ++ p.2)

/-! ## Trace predicates -/

def isCallEnter : Act → Bool
  | .callEnter _ => true
  | _ => false

def isCallExit : Act → Bool
  | .callExit _ => true
  | _ => false

def isInvoke : Act → Bool
  | .invoke _ _ _ => true
  | _ => false

def isSubmitOutput : Act → Bool
  | .submitOutput _ _ _ => true
  | _ => false

/-- No coordinator entry or exit markers in the trace. -/
def noCallMarkers (l : List Act) : Bool :=
  l.all fun a => !isCallEnter a && !isCallExit a

/-- No registry invocation and no function-call-output submission. -/
def noInvokeOrSubmit (l : List Act) : Bool :=
  l.all fun a => !isInvoke a && !isSubmitOutput a

/-- Highest number of simultaneously open coordinator executions
reached along the trace, starting from `d` open calls. -/
def maxOpenCalls : Nat → List Act → Nat
  | d, [] => d
  | d, a :: t =>
    let d' := match a with
      | .callEnter _ => d + 1
      | .callExit _ => d - 1
      | _ => d
    max d (maxOpenCalls d' t)

def containsSubmit (l : List Act) : Bool := l.any isSubmitOutput

/-- Some `clearFnCall` marker is strictly followed by some
`submitOutput` in the trace. -/
def clearBeforeSubmit : List Act → Bool
  | [] => false
  | .clearFnCall :: t => containsSubmit t
  | _ :: t => clearBeforeSubmit t

def isFunctionCallItem : Event → Bool
  | .convItemCreatedFunctionCall _ _ _ => true
  | _ => false

def isArgsDone : Event → Bool
  | .fnCallArgsDone _ _ => true
  | _ => false

def isResponseDoneEvent : Event → Bool
  | .responseDone _ _ => true
  | _ => false

/-- A fixed settings value used by concrete witnesses and
counterexamples (`show_transcriptions = true`, the 24000 Hz default). -/
def cfg0 : VoiceLiveSettings :=
  { show_transcriptions := true
    sample_rate_hz := 24000
    clock := { utc_time := "10:00:00 AM", utc_date := "Sunday, October 12, 2025",
               local_time := "12:00:00 PM", local_date := "Sunday, October 12, 2025" } }

end VoiceLive


namespace VoiceLive

/-! ## Association-list lemmas -/

theorem dget_dset_self {α β : Type} [DecidableEq α] (t : List (α × β)) (k : α) (v : β) :
    dget (dset t k v) k = some v := by
  induction t with
  | nil => simp [dget, dset]
  | cons hd tl ih =>
    obtain ⟨k', v'⟩ := hd
    by_cases h : k' = k
    · subst h
      simp [dget, dset]
    · simp [dget, dset, h, ih]

theorem dpop_dset {α β : Type} [DecidableEq α] (t : List (α × β)) (k : α) (v : β) :
    dpop (dset t k v) k = dpop t k := by
  induction t with
  | nil => simp [dpop, dset]
  | cons hd tl ih =>
    obtain ⟨k', v'⟩ := hd
    by_cases h : k' = k
    · subst h
      simp [dpop, dset]
    · simp [dpop, dset, h, ih]

theorem dset_of_dget_none {α β : Type} [DecidableEq α] (t : List (α × β)) (k : α) (v : β)
    (h : dget t k = none) : dset t k v = t ++ [(k, v)] := by
  induction t with
  | nil => simp [dset]
  | cons hd tl ih =>
    obtain ⟨k', v'⟩ := hd
    by_cases hk : k' = k
    · subst hk
      simp [dget] at h
    · simp [dget, hk] at h
      simp [dset, hk, ih h]

theorem dpop_of_dget_none {α β : Type} [DecidableEq α] (t : List (α × β)) (k : α)
    (h : dget t k = none) : dpop t k = t := by
  induction t with
  | nil => simp [dpop]
  | cons hd tl ih =>
    obtain ⟨k', v'⟩ := hd
    by_cases hk : k' = k
    · subst hk
      simp [dget] at h
    · simp [dget, hk] at h
      simp [dpop, hk, ih h]

theorem dpop_append_of_dget_none {α β : Type} [DecidableEq α] (t : List (α × β)) (k : α) (v : β)
    (h : dget t k = none) : dpop (t ++ [(k, v)]) k = t := by
  induction t with
  | nil => simp [dpop]
  | cons hd tl ih =>
    obtain ⟨k', v'⟩ := hd
    by_cases hk : k' = k
    · subst hk
      simp [dget] at h
    · simp [dget, hk] at h
      simp [dpop, hk, ih h]

/-! ## Trace-predicate lemmas -/

theorem noCallMarkers_append (l1 l2 : List Act) :
    noCallMarkers (l1 ++ l2) = (noCallMarkers l1 && noCallMarkers l2) := by
  simp [noCallMarkers, List.all_append]

theorem noInvokeOrSubmit_append (l1 l2 : List Act) :
    noInvokeOrSubmit (l1 ++ l2) = (noInvokeOrSubmit l1 && noInvokeOrSubmit l2) := by
  simp [noInvokeOrSubmit, List.all_append]

theorem maxOpenCalls_ge (d : Nat) (l : List Act) : d ≤ maxOpenCalls d l := by
  induction l generalizing d with
  | nil => simp [maxOpenCalls]
  | cons a t ih => simp [maxOpenCalls]

theorem maxOpenCalls_of_noCallMarkers (l : List Act) (h : noCallMarkers l = true) (d : Nat) :
    maxOpenCalls d l = d := by
  induction l with
  | nil => simp [maxOpenCalls]
  | cons a t ih =>
    simp [noCallMarkers] at h
    obtain ⟨ha, ht⟩ := h
    have ht' : noCallMarkers t = true := by
      simp [noCallMarkers]
      exact ht
    cases a <;> simp [isCallEnter, isCallExit] at ha <;>
      simp [maxOpenCalls, ih ht']

theorem maxOpenCalls_append_noCallMarkers (l r : List Act) (h : noCallMarkers l = true) (d : Nat) :
    maxOpenCalls d (l ++ r) = maxOpenCalls d r := by
  induction l with
  | nil => simp
  | cons a t ih =>
    simp [noCallMarkers] at h
    obtain ⟨ha, ht⟩ := h
    have ht' : noCallMarkers t = true := by
      simp [noCallMarkers]
      exact ht
    have hge := maxOpenCalls_ge d (t ++ r)
    cases a <;> simp [isCallEnter, isCallExit] at ha <;>
      simp [maxOpenCalls, ih ht', Nat.max_eq_right, maxOpenCalls_ge d r]

/-- A well-nested trace: one enter, a marker-free middle, one final exit. -/
theorem maxOpenCalls_wellNested (c c' : String) (mid : List Act)
    (h : noCallMarkers mid = true) :
    maxOpenCalls 0 (Act.callEnter c :: mid ++ [Act.callExit c']) ≤ 1 := by
  have h1 : maxOpenCalls 1 (mid ++ [Act.callExit c']) = 1 := by
    rw [maxOpenCalls_append_noCallMarkers _ _ h]
    simp [maxOpenCalls]
  simp [maxOpenCalls, h1]

end VoiceLive

namespace VoiceLive

/-! ## Dispatcher and event-handler lemmas -/

theorem handleEvent_zero (cfg : VoiceLiveSettings) (st : BridgeState) (e : Event)
    (rest : List Event) : handleEvent 0 cfg st e rest = (st, [], rest) := rfl

/-- On every event except a function-call conversation item,
`handleEvent` is the pure dispatcher and does not consume the stream. -/
theorem handleEvent_succ_nonItem (fuel : Nat) (cfg : VoiceLiveSettings) (st : BridgeState)
    (e : Event) (rest : List Event) (h : isFunctionCallItem e = false) :
    handleEvent (fuel + 1) cfg st e rest =
      ((dispatchStep cfg st e).1, (dispatchStep cfg st e).2, rest) := by
  cases e <;> first | rfl | simp [isFunctionCallItem] at h

theorem dispatchStep_noCallMarkers (cfg : VoiceLiveSettings) (st : BridgeState) (e : Event) :
    noCallMarkers (dispatchStep cfg st e).2 = true := by
  cases e <;> simp [dispatchStep, noCallMarkers, isCallEnter, isCallExit] <;>
    (repeat' split) <;> simp [noCallMarkers, isCallEnter, isCallExit]

theorem dispatchStep_noInvokeOrSubmit (cfg : VoiceLiveSettings) (st : BridgeState) (e : Event) :
    noInvokeOrSubmit (dispatchStep cfg st e).2 = true := by
  cases e <;> simp [dispatchStep, noInvokeOrSubmit, isInvoke, isSubmitOutput] <;>
    (repeat' split) <;> simp [noInvokeOrSubmit, isInvoke, isSubmitOutput]

/-- Combined facts about forwarding a non-function-call event. -/
theorem handleEvent_nonItem_facts (fuel : Nat) (cfg : VoiceLiveSettings) (st : BridgeState)
    (e : Event) (rest : List Event) (h : isFunctionCallItem e = false) :
    (handleEvent fuel cfg st e rest).2.2 = rest ∧
    noCallMarkers (handleEvent fuel cfg st e rest).2.1 = true ∧
    noInvokeOrSubmit (handleEvent fuel cfg st e rest).2.1 = true := by
  cases fuel with
  | zero => exact ⟨rfl, rfl, rfl⟩
  | succ f =>
    rw [handleEvent_succ_nonItem f cfg st e rest h]
    exact ⟨rfl, dispatchStep_noCallMarkers cfg st e, dispatchStep_noInvokeOrSubmit cfg st e⟩

/-- Unfolding of `waitForArgs` on a non-arguments-done head. -/
theorem waitForArgs_cons_not_args (fuel : Nat) (cfg : VoiceLiveSettings) (st : BridgeState)
    (e : Event) (es : List Event) (h : isArgsDone e = false) :
    waitForArgs (fuel + 1) cfg st (e :: es) =
      ((waitForArgs fuel cfg (handleEvent fuel cfg st e es).1 (handleEvent fuel cfg st e es).2.2).1,
       (handleEvent fuel cfg st e es).2.1 ++
         (waitForArgs fuel cfg (handleEvent fuel cfg st e es).1
           (handleEvent fuel cfg st e es).2.2).2.1,
       (waitForArgs fuel cfg (handleEvent fuel cfg st e es).1
         (handleEvent fuel cfg st e es).2.2).2.2.1,
       (waitForArgs fuel cfg (handleEvent fuel cfg st e es).1
         (handleEvent fuel cfg st e es).2.2).2.2.2) := by
  cases e <;> first | rfl | simp [isArgsDone] at h

/-- Unfolding of `waitForDone` on a head that is not `RESPONSE_DONE`. -/
theorem waitForDone_cons_not_done (fuel : Nat) (cfg : VoiceLiveSettings) (st : BridgeState)
    (e : Event) (es : List Event) (h : isResponseDoneEvent e = false) :
    waitForDone (fuel + 1) cfg st (e :: es) =
      ((waitForDone fuel cfg (handleEvent fuel cfg st e es).1 (handleEvent fuel cfg st e es).2.2).1,
       (handleEvent fuel cfg st e es).2.1 ++
         (waitForDone fuel cfg (handleEvent fuel cfg st e es).1
           (handleEvent fuel cfg st e es).2.2).2.1,
       (waitForDone fuel cfg (handleEvent fuel cfg st e es).1
         (handleEvent fuel cfg st e es).2.2).2.2.1,
       (waitForDone fuel cfg (handleEvent fuel cfg st e es).1
         (handleEvent fuel cfg st e es).2.2).2.2.2) := by
  cases e <;> first | rfl | simp [isResponseDoneEvent] at h

/-- While no function-call conversation item arrives, the arguments wait
emits no coordinator markers, and the remaining stream keeps the
property. -/
theorem waitForArgs_noItems (fuel : Nat) (cfg : VoiceLiveSettings) :
    ∀ (st : BridgeState) (evs : List Event),
      evs.all (fun e => !isFunctionCallItem e) = true →
      noCallMarkers (waitForArgs fuel cfg st evs).2.1 = true ∧
      (waitForArgs fuel cfg st evs).2.2.2.all (fun e => !isFunctionCallItem e) = true := by
  induction fuel with
  | zero => intro st evs h; exact ⟨rfl, h⟩
  | succ f ih =>
    intro st evs h
    cases evs with
    | nil => exact ⟨rfl, rfl⟩
    | cons e es =>
      simp only [List.all_cons, Bool.and_eq_true] at h
      obtain ⟨he, hes⟩ := h
      by_cases ha : isArgsDone e = true
      · cases e <;> simp [isArgsDone] at ha
        exact ⟨rfl, hes⟩
      · rw [Bool.not_eq_true] at ha
        rw [waitForArgs_cons_not_args f cfg st e es ha]
        have hne : isFunctionCallItem e = false := by
          cases hfe : isFunctionCallItem e
          · rfl
          · rw [hfe] at he; simp at he
        obtain ⟨hrest, hmark, _⟩ := handleEvent_nonItem_facts f cfg st e es hne
        rw [hrest] at *
        obtain ⟨hm2, hr2⟩ := ih (handleEvent f cfg st e es).1 es hes
        refine ⟨?_, hr2⟩
        rw [noCallMarkers_append, hmark, hm2]
        rfl

/-- Same property for the turn-completion wait. -/
theorem waitForDone_noItems (fuel : Nat) (cfg : VoiceLiveSettings) :
    ∀ (st : BridgeState) (evs : List Event),
      evs.all (fun e => !isFunctionCallItem e) = true →
      noCallMarkers (waitForDone fuel cfg st evs).2.1 = true ∧
      (waitForDone fuel cfg st evs).2.2.2.all (fun e => !isFunctionCallItem e) = true := by
  induction fuel with
  | zero => intro st evs h; exact ⟨rfl, h⟩
  | succ f ih =>
    intro st evs h
    cases evs with
    | nil => exact ⟨rfl, rfl⟩
    | cons e es =>
      simp only [List.all_cons, Bool.and_eq_true] at h
      obtain ⟨he, hes⟩ := h
      by_cases hdn : isResponseDoneEvent e = true
      · cases e <;> simp [isResponseDoneEvent] at hdn
        exact ⟨rfl, hes⟩
      · rw [Bool.not_eq_true] at hdn
        rw [waitForDone_cons_not_done f cfg st e es hdn]
        have hne : isFunctionCallItem e = false := by
          cases hfe : isFunctionCallItem e
          · rfl
          · rw [hfe] at he; simp at he
        obtain ⟨hrest, hmark, _⟩ := handleEvent_nonItem_facts f cfg st e es hne
        rw [hrest] at *
        obtain ⟨hm2, hr2⟩ := ih (handleEvent f cfg st e es).1 es hes
        refine ⟨?_, hr2⟩
        rw [noCallMarkers_append, hmark, hm2]
        rfl

end VoiceLive


namespace VoiceLive

/-- Trace shape of a completed coordinator run: enter, three
marker-free stretches, the invoke/submit/request tail, exit. -/
theorem maxOpenCalls_main_shape (c : String) (l1 l2 l3 : List Act) (a1 a2 a3 : Act)
    (h1 : noCallMarkers l1 = true) (h2 : noCallMarkers l2 = true)
    (h3 : noCallMarkers l3 = true) (ha : noCallMarkers [a1, a2, a3] = true) :
    maxOpenCalls 0 (Act.callEnter c :: l1 ++ (l2 ++ (l3 ++ [a1, a2, a3, Act.callExit c]))) ≤ 1 := by
  have hmid : noCallMarkers (l1 ++ (l2 ++ (l3 ++ [a1, a2, a3]))) = true := by
    rw [noCallMarkers_append, h1, noCallMarkers_append, h2, noCallMarkers_append, h3, ha]
    rfl
  have hn := maxOpenCalls_wellNested c c _ hmid
  simpa [List.append_assoc] using hn

/-! ## Claim C1 -/

/-- C1 counterexample: the claim states that processing a second
function-call conversation-item-created event while one call is in
flight never leaves two calls simultaneously in progress.  It is false:
a second function-call item arriving while the coordinator waits for
the first call's arguments is forwarded through `on_unhandled` into
`_handle_event`, which re-enters `_handle_function_call`, so two
pending calls are open at once (`maxOpenCalls` reaches `2`). -/
theorem claim_C1_counterexample :
    2 ≤ maxOpenCalls 0 (processEvents 10 cfg0 initialState
      [Event.convItemCreatedFunctionCall "get_current_time" "C1" "i1",
       Event.convItemCreatedFunctionCall "get_current_time" "C2" "i2"]).2 := by
  decide

/-- C1 amended: at most one `PendingFunctionCall` is active at a time
provided no further function-call conversation-item-created event
arrives while a call is in flight; if one does arrive via the
coordinator's `on_unhandled` forwarding, the coordinator re-enters and
two calls are simultaneously in progress (see the counterexample).
Formally: a coordinator run over a remote stream containing no
function-call conversation items keeps the number of simultaneously
open calls at one. -/
theorem claim_C1_amended (fuel : Nat) (cfg : VoiceLiveSettings) (st : BridgeState)
    (name cid iid : String) (evs : List Event)
    (h : evs.all (fun e => !isFunctionCallItem e) = true) :
    maxOpenCalls 0 (handleFunctionCall fuel cfg st name cid iid evs).2.1 ≤ 1 := by
  cases fuel with
  | zero => simp [handleFunctionCall, maxOpenCalls]
  | succ f =>
    simp only [handleFunctionCall]
    have hwa := waitForArgs_noItems f cfg
      { st with function_call_in_progress := true, active_call_id := some cid } evs h
    rcases hW : waitForArgs f cfg
      { st with function_call_in_progress := true, active_call_id := some cid } evs with
      ⟨st2, acts1, found, evs1⟩
    rw [hW] at hwa
    obtain ⟨hw1, hw2⟩ := hwa
    cases found with
    | none => exact maxOpenCalls_wellNested cid cid _ hw1
    | some p =>
      obtain ⟨c, args⟩ := p
      by_cases hc : c = cid
      · simp only [if_pos hc]
        have hwd := waitForDone_noItems f cfg st2 evs1 hw2
        rcases hD : waitForDone f cfg st2 evs1 with ⟨st3, acts2, found2, evs2⟩
        rw [hD] at hwd
        obtain ⟨hd1, hd2⟩ := hwd
        cases found2 with
        | none =>
          simp only [List.append_assoc]
          exact maxOpenCalls_main_shape cid acts1 acts2 [] (.invoke name cid args)
            (.submitOutput iid cid (callRegistry cfg name args)) .requestResponse hw1 hd1 rfl rfl
        | some q =>
          obtain ⟨rid, tr⟩ := q
          simp only [List.append_assoc]
          have hhe := handleEvent_nonItem_facts f cfg st3 (.responseDone rid tr) evs2 rfl
          rcases hH : handleEvent f cfg st3 (.responseDone rid tr) evs2 with ⟨st4, acts3, evs3⟩
          rw [hH] at hhe
          obtain ⟨_, hmark, _⟩ := hhe
          exact maxOpenCalls_main_shape cid acts1 acts2 acts3 (.invoke name cid args)
            (.submitOutput iid cid (callRegistry cfg name args)) .requestResponse hw1 hd1 hmark rfl
      · simp only [if_neg hc]
        exact maxOpenCalls_wellNested cid cid _ hw1

/-- C1 amended witness at a concrete marker-free stream. -/
theorem claim_C1_amended_witness :
    maxOpenCalls 0 (handleFunctionCall 5 cfg0 initialState "get_current_time" "C1" "i1"
      [Event.speechStarted]).2.1 ≤ 1 :=
  claim_C1_amended 5 cfg0 initialState "get_current_time" "C1" "i1"
    [Event.speechStarted] (by decide)

end VoiceLive

namespace VoiceLive

/-- Wrapping a submission-free trace in enter/exit markers keeps it free
of registry invocations and output submissions. -/
theorem noInvokeOrSubmit_abort (c : String) (l : List Act)
    (h : noInvokeOrSubmit l = true) :
    noInvokeOrSubmit (Act.callEnter c :: l ++ [Act.callExit c]) = true := by
  simp [noInvokeOrSubmit, List.all_cons, List.all_append, isInvoke, isSubmitOutput] at h ⊢
  exact h

/-- While only benign events (no function-call items, no
arguments-done) precede the arguments-done event carrying `(c, a)`, the
arguments wait emits no invocation or submission, and either times out
or returns exactly `(c, a)`. -/
theorem waitForArgs_benign (fuel : Nat) (cfg : VoiceLiveSettings) (c a : String)
    (rest : List Event) :
    ∀ (st : BridgeState) (ps : List Event),
      ps.all (fun e => !isFunctionCallItem e && !isArgsDone e) = true →
      noInvokeOrSubmit (waitForArgs fuel cfg st (ps ++ Event.fnCallArgsDone c a :: rest)).2.1 = true ∧
      ((waitForArgs fuel cfg st (ps ++ Event.fnCallArgsDone c a :: rest)).2.2.1 = none ∨
       (waitForArgs fuel cfg st (ps ++ Event.fnCallArgsDone c a :: rest)).2.2.1 = some (c, a)) := by
  induction fuel with
  | zero => intro st ps hp; exact ⟨rfl, Or.inl rfl⟩
  | succ f ih =>
    intro st ps hp
    cases ps with
    | nil => exact ⟨rfl, Or.inr rfl⟩
    | cons e p =>
      simp only [List.all_cons, Bool.and_eq_true, Bool.not_eq_true'] at hp
      obtain ⟨⟨hitem, hargs⟩, hps⟩ := hp
      rw [List.cons_append, waitForArgs_cons_not_args f cfg st e
        (p ++ Event.fnCallArgsDone c a :: rest) hargs]
      obtain ⟨hrest, _, hnis⟩ := handleEvent_nonItem_facts f cfg st e
        (p ++ Event.fnCallArgsDone c a :: rest) hitem
      rw [hrest]
      obtain ⟨ih1, ih2⟩ := ih
        (handleEvent f cfg st e (p ++ Event.fnCallArgsDone c a :: rest)).1 p hps
      refine ⟨?_, ih2⟩
      rw [noInvokeOrSubmit_append, hnis, ih1]
      rfl

/-! ## Claim C4 -/

/-- C4: if the arguments-complete event carries a call id different
from the detected call id, the coordinator aborts: the registry is
never invoked and no function-call-output item is submitted to the
remote connection.  The events forwarded while waiting are required to
be benign (no nested function-call items, no earlier arguments-done),
which is the scenario of the claim. -/
theorem claim_C4 (fuel : Nat) (cfg : VoiceLiveSettings) (st : BridgeState)
    (name cid iid : String) (ps : List Event) (c a : String) (rest : List Event)
    (hp : ps.all (fun e => !isFunctionCallItem e && !isArgsDone e) = true)
    (hne : c ≠ cid) :
    noInvokeOrSubmit (handleFunctionCall fuel cfg st name cid iid
      (ps ++ Event.fnCallArgsDone c a :: rest)).2.1 = true := by
  cases fuel with
  | zero => rfl
  | succ f =>
    simp only [handleFunctionCall]
    obtain ⟨hni, hfound⟩ := waitForArgs_benign f cfg c a rest
      { st with function_call_in_progress := true, active_call_id := some cid } ps hp
    rcases hW : waitForArgs f cfg
      { st with function_call_in_progress := true, active_call_id := some cid }
      (ps ++ Event.fnCallArgsDone c a :: rest) with ⟨st2, acts1, found, evs1⟩
    rw [hW] at hni hfound
    cases found with
    | none => exact noInvokeOrSubmit_abort cid acts1 hni
    | some q =>
      obtain ⟨c', a'⟩ := q
      rcases hfound with h1 | h2
      · simp at h1
      · simp only [Option.some.injEq, Prod.mk.injEq] at h2
        obtain ⟨hc', ha'⟩ := h2
        subst hc'
        subst ha'
        simp only [if_neg hne]
        exact noInvokeOrSubmit_abort cid acts1 hni

/-- C4 witness: a concrete mismatching arguments-done aborts the call. -/
theorem claim_C4_witness :
    noInvokeOrSubmit (handleFunctionCall 5 cfg0 initialState "get_current_weather" "C1" "i1"
      ([Event.speechStarted] ++ Event.fnCallArgsDone "C2" "x" :: [])).2.1 = true :=
  claim_C4 5 cfg0 initialState "get_current_weather" "C1" "i1"
    [Event.speechStarted] "C2" "x" [] (by decide) (by decide)

end VoiceLive

namespace VoiceLive

/-! ## Claim C3 -/

/-- C3 counterexample: the claim states the in-progress flags are
cleared only when the turn after the result submission completes, and
never at or before the submission of the function-call-output item.  It
is false: in the ordinary path the coordinator waits for the current
turn's `RESPONSE_DONE`, routes it through `_handle_event` — whose
`RESPONSE_DONE` branch clears `function_call_in_progress` and
`active_call_id` (the `clearFnCall` marker) — and only afterwards
submits the output item, so the clearing strictly precedes the
submission. -/
theorem claim_C3_counterexample :
    clearBeforeSubmit (processEvents 10 cfg0 initialState
      [Event.convItemCreatedFunctionCall "get_current_weather" "C1" "i1",
       Event.fnCallArgsDone "C1" "oops",
       Event.responseDone (some "r1") none]).2 = true := by
  decide

/-- C3 amended: the flags are indeed cleared by the dispatcher's
response-done path, but during a function call that path runs on the
current turn's completion event before the output item is submitted:
whenever the matching arguments-done event and then a turn-completion
event arrive, the `clearFnCall` marker occurs strictly before the
`submitOutput` of the call (on a turn-completion timeout the flags
instead stay set past the submission). -/
theorem claim_C3_amended (fuel : Nat) (cfg : VoiceLiveSettings) (st : BridgeState)
    (name cid iid args : String) (rid tr : Option String) (rest : List Event) :
    clearBeforeSubmit (handleFunctionCall (fuel + 2) cfg st name cid iid
      (Event.fnCallArgsDone cid args :: Event.responseDone rid tr :: rest)).2.1 = true := by
  simp [handleFunctionCall, waitForArgs, waitForDone, handleEvent, dispatchStep,
    clearBeforeSubmit, containsSubmit, isSubmitOutput]

end VoiceLive

namespace VoiceLive

/-- Streamed text deltas for a known response id accumulate by
concatenation in arrival order. -/
theorem deltas_accumulate (cfg : VoiceLiveSettings) (R : String) (hR : R ≠ "") :
    ∀ (ds : List String) (fuel : Nat), ds.length + 1 ≤ fuel →
      ∀ (st : BridgeState) (acc : String), dget st.assistant_text R = some acc →
      dget (processEvents fuel cfg st
          (ds.map fun d => Event.responseTextDelta (some R) d)).1.assistant_text R
        = some (acc ++ concatAll ds) := by
  intro ds
  induction ds with
  | nil =>
    intro fuel _ st acc hacc
    cases fuel with
    | zero => simpa [processEvents, concatAll, String.append_empty] using hacc
    | succ f => simpa [processEvents, concatAll, String.append_empty] using hacc
  | cons d ds ih =>
    intro fuel hlen st acc hacc
    cases fuel with
    | zero => simp at hlen
    | succ f =>
      cases f with
      | zero => simp at hlen
      | succ g =>
        simp only [List.map_cons, processEvents]
        rw [handleEvent_succ_nonItem g cfg st (.responseTextDelta (some R) d)
          (ds.map fun d => Event.responseTextDelta (some R) d) rfl]
        simp only [dispatchStep, hacc, Option.getD_some, if_neg hR]
        have hstep : dget (dset st.assistant_text R (acc ++ d)) R = some (acc ++ d) :=
          dget_dset_self st.assistant_text R (acc ++ d)
        have hlen' : ds.length + 1 ≤ g + 1 := by
          simp at hlen
          omega
        have := ih (g + 1) hlen'
          { st with assistant_text := dset st.assistant_text R (acc ++ d) } (acc ++ d) hstep
        simpa [concatAll, String.append_assoc] using this

/-- Streamed deltas followed by the response-done event: the entry is
popped and the assistant message carries the accumulated text (with the
transcript/placeholder fallback when it is empty). -/
theorem deltas_then_done (cfg : VoiceLiveSettings) (R : String) (hR : R ≠ "")
    (tr : Option String) :
    ∀ (ds : List String) (fuel : Nat), ds.length + 2 ≤ fuel →
      ∀ (st : BridgeState) (acc : String), dget st.assistant_text R = some acc →
      (processEvents fuel cfg st
          ((ds.map fun d => Event.responseTextDelta (some R) d) ++
            [Event.responseDone (some R) tr])).1.assistant_text
        = dpop st.assistant_text R ∧
      (processEvents fuel cfg st
          ((ds.map fun d => Event.responseTextDelta (some R) d) ++
            [Event.responseDone (some R) tr])).2 =
        [Act.send (.assistantMessage
            (if acc ++ concatAll ds = "" then pyOrStr tr "Assistant response completed."
             else acc ++ concatAll ds) tr),
         Act.clearFnCall, Act.send (.assistantState "idle" none)] := by
  intro ds
  induction ds with
  | nil =>
    intro fuel hlen st acc hacc
    cases fuel with
    | zero => simp at hlen
    | succ f =>
      cases f with
      | zero => simp at hlen
      | succ g =>
        simp only [List.map_nil, List.nil_append, processEvents]
        rw [handleEvent_succ_nonItem g cfg st (.responseDone (some R) tr) [] rfl]
        simp only [dispatchStep, hacc, Option.getD_some, if_neg hR]
        simp [processEvents, concatAll, String.append_empty]
  | cons d ds ih =>
    intro fuel hlen st acc hacc
    cases fuel with
    | zero => simp at hlen
    | succ f =>
      cases f with
      | zero => simp at hlen
      | succ g =>
        simp only [List.map_cons, List.cons_append, processEvents, List.append_eq]
        rw [handleEvent_succ_nonItem g cfg st (.responseTextDelta (some R) d)
          ((ds.map fun d => Event.responseTextDelta (some R) d) ++
            [Event.responseDone (some R) tr]) rfl]
        simp only [dispatchStep, hacc, Option.getD_some, if_neg hR]
        have hstep : dget (dset st.assistant_text R (acc ++ d)) R = some (acc ++ d) :=
          dget_dset_self st.assistant_text R (acc ++ d)
        have hlen' : ds.length + 2 ≤ g + 1 := by
          simp at hlen
          omega
        obtain ⟨iht, iha⟩ := ih (g + 1) hlen'
          { st with assistant_text := dset st.assistant_text R (acc ++ d) } (acc ++ d) hstep
        constructor
        · rw [iht]
          exact dpop_dset st.assistant_text R (acc ++ d)
        · rw [iha]
          simp [concatAll, String.append_assoc]

/-! ## Claim C2 -/

/-- C2: for a fresh response id `R`, after response-created, any finite
list of text deltas for `R` and the response-done for `R`, the
accumulator holds exactly the concatenation of the deltas in arrival
order at the moment response-done pops it, the entry for `R` is
removed, and the outgoing assistant message carries that concatenation
(with the transcript/placeholder fallback when it is empty, per the
dispatcher's fallback rule). -/
theorem claim_C2 (cfg : VoiceLiveSettings) (st : BridgeState) (R : String)
    (tr : Option String) (deltas : List String) (fuel : Nat)
    (hR : R ≠ "") (hfresh : dget st.assistant_text R = none)
    (hfuel : deltas.length + 3 ≤ fuel) :
    dget (processEvents fuel cfg st
        (Event.responseCreated (some R) ::
          (deltas.map fun d => Event.responseTextDelta (some R) d))).1.assistant_text R
      = some (concatAll deltas) ∧
    dget (processEvents fuel cfg st
        (Event.responseCreated (some R) ::
          ((deltas.map fun d => Event.responseTextDelta (some R) d) ++
            [Event.responseDone (some R) tr]))).1.assistant_text R = none ∧
    (processEvents fuel cfg st
        (Event.responseCreated (some R) ::
          ((deltas.map fun d => Event.responseTextDelta (some R) d) ++
            [Event.responseDone (some R) tr]))).2 =
      [Act.send (.assistantMessage
          (if concatAll deltas = "" then pyOrStr tr "Assistant response completed."
           else concatAll deltas) tr),
       Act.clearFnCall, Act.send (.assistantState "idle" none)] := by
  cases fuel with
  | zero => simp at hfuel
  | succ f =>
    cases f with
    | zero => simp at hfuel
    | succ e =>
      simp only [processEvents]
      rw [handleEvent_succ_nonItem e cfg st (.responseCreated (some R))
          (deltas.map fun d => Event.responseTextDelta (some R) d) rfl,
        handleEvent_succ_nonItem e cfg st (.responseCreated (some R))
          ((deltas.map fun d => Event.responseTextDelta (some R) d) ++
            [Event.responseDone (some R) tr]) rfl]
      simp only [dispatchStep, if_neg hR]
      have hemp : dget (dset st.assistant_text R "") R = some "" :=
        dget_dset_self st.assistant_text R ""
      have hlen1 : deltas.length + 1 ≤ e + 1 := by simp at hfuel; omega
      have hlen2 : deltas.length + 2 ≤ e + 1 := by simp at hfuel; omega
      obtain ⟨iht, iha⟩ := deltas_then_done cfg R hR tr deltas (e + 1) hlen2
        { st with assistant_text := dset st.assistant_text R "" } "" hemp
      refine ⟨?_, ?_, ?_⟩
      · have := deltas_accumulate cfg R hR deltas (e + 1) hlen1
          { st with assistant_text := dset st.assistant_text R "" } "" hemp
        simpa [String.empty_append] using this
      · rw [iht]
        simp only [dpop_dset]
        rw [dpop_of_dget_none st.assistant_text R hfresh]
        exact hfresh
      · rw [iha]
        simp [String.empty_append]

end VoiceLive

namespace VoiceLive

/-- C2 witness at the ordinary-turn scenario deltas. -/
theorem claim_C2_witness :
    dget (processEvents 10 cfg0 initialState
        (Event.responseCreated (some "r1") ::
          (["Hel", "lo ", "there"].map fun d =>
            Event.responseTextDelta (some "r1") d))).1.assistant_text "r1"
      = some (concatAll ["Hel", "lo ", "there"]) ∧
    dget (processEvents 10 cfg0 initialState
        (Event.responseCreated (some "r1") ::
          ((["Hel", "lo ", "there"].map fun d =>
            Event.responseTextDelta (some "r1") d) ++
            [Event.responseDone (some "r1") none]))).1.assistant_text "r1" = none ∧
    (processEvents 10 cfg0 initialState
        (Event.responseCreated (some "r1") ::
          ((["Hel", "lo ", "there"].map fun d =>
            Event.responseTextDelta (some "r1") d) ++
            [Event.responseDone (some "r1") none]))).2 =
      [Act.send (.assistantMessage
          (if concatAll ["Hel", "lo ", "there"] = ""
           then pyOrStr none "Assistant response completed."
           else concatAll ["Hel", "lo ", "there"]) none),
       Act.clearFnCall, Act.send (.assistantState "idle" none)] :=
  claim_C2 cfg0 initialState "r1" none ["Hel", "lo ", "there"] 10
    (by decide) (by decide) (by decide)

/-! ## Claim C5 -/

/-- C5 counterexample: the claim states every registry function treats
a string that fails structured parsing as an empty argument set and
proceeds with its per-field defaults.  `get_current_weather` does not:
on parse failure it returns an error mapping, with no `location` field
at all (the empty-argument result would carry `location = "Unknown"`). -/
theorem claim_C5_counterexample :
    jsonParseObj "oops" = none ∧
    get_current_weather (some (.str "oops")) = [("error", JVal.s "Invalid arguments")] ∧
    dget (get_current_weather (some (.str "oops"))) "location" = none ∧
    dget (get_current_weather (some (.map []))) "location" = some (JVal.s "Unknown") := by
  decide

/-- C5 amended: on a string argument that fails structured parsing,
`get_current_time` treats it as an empty argument set (and proceeds
with its defaults), while `get_current_weather` instead returns a
result mapping carrying an `error` field ("Invalid arguments"); in both
cases no exception escapes — every outcome is an ordinary result
mapping. -/
theorem claim_C5_amended (s : String) (clk : Clock) (h : jsonParseObj s = none) :
    get_current_weather (some (.str s)) = [("error", JVal.s "Invalid arguments")] ∧
    get_current_time clk (some (.str s)) = get_current_time clk (some (.map [])) := by
  constructor
  · simp [get_current_weather, h]
  · simp [get_current_time, h]

/-- C5 amended witness at a concrete non-JSON string. -/
theorem claim_C5_amended_witness :
    get_current_weather (some (.str "oops")) = [("error", JVal.s "Invalid arguments")] ∧
    get_current_time cfg0.clock (some (.str "oops")) =
      get_current_time cfg0.clock (some (.map [])) :=
  claim_C5_amended "oops" cfg0.clock (by decide)

/-! ## Claim C6 -/

/-- C6 counterexample: the claim states the transcript-done handler
finalizes to the accumulated buffer and falls back to the
event-supplied transcript only when the buffer is empty.  It is false:
with buffer "abc" and event transcript "xyz" the handler forwards
"xyz" — the code prefers the event-supplied transcript and uses the
buffer only as the fallback. -/
theorem claim_C6_counterexample :
    dget ({ initialState with
        assistant_transcripts := [(("r1", "i1", (0 : Int)), "abc")] } :
          BridgeState).assistant_transcripts ("r1", "i1", (0 : Int)) = some "abc" ∧
    (handleEvent 1 cfg0
        { initialState with assistant_transcripts := [(("r1", "i1", (0 : Int)), "abc")] }
        (Event.transcriptDone "r1" "i1" 0 "xyz") []).2.1 =
      [Act.send (.assistantTranscript "xyz" "r1")] := by
  decide

/-- C6 amended: with transcript display enabled, the transcript-done
handler removes the accumulator entry, forwards the event-supplied
transcript when it is nonempty, and only when the event transcript is
empty falls back to the accumulated buffer (forwarding it when
nonempty, otherwise sending nothing).  In particular, if no delta ever
arrived the event-supplied transcript is the one returned. -/
theorem claim_C6_amended (fuel : Nat) (cfg : VoiceLiveSettings) (st : BridgeState)
    (rid iid : String) (idx : Int) (tr : String) (rest : List Event)
    (hshow : cfg.show_transcriptions = true) :
    (handleEvent (fuel + 1) cfg st (.transcriptDone rid iid idx tr) rest).1.assistant_transcripts
      = dpop st.assistant_transcripts (rid, iid, idx) ∧
    (tr ≠ "" →
      (handleEvent (fuel + 1) cfg st (.transcriptDone rid iid idx tr) rest).2.1 =
        [Act.send (.assistantTranscript tr rid)]) ∧
    (tr = "" →
      (handleEvent (fuel + 1) cfg st (.transcriptDone rid iid idx tr) rest).2.1 =
        (if (dget st.assistant_transcripts (rid, iid, idx)).getD "" = "" then []
         else [Act.send (.assistantTranscript
            ((dget st.assistant_transcripts (rid, iid, idx)).getD "") rid)])) ∧
    (handleEvent (fuel + 1) cfg st (.transcriptDone rid iid idx tr) rest).2.2 = rest := by
  rw [handleEvent_succ_nonItem fuel cfg st (.transcriptDone rid iid idx tr) rest rfl]
  simp only [dispatchStep, hshow, if_true]
  refine ⟨trivial, ?_, ?_, trivial⟩
  · intro htr
    simp [if_neg htr]
  · intro htr
    subst htr
    simp

/-- C6 amended witness: empty buffer, nonempty event transcript. -/
theorem claim_C6_amended_witness :
    (handleEvent 1 cfg0 initialState (.transcriptDone "r1" "i1" 0 "xyz") []).1.assistant_transcripts
      = dpop initialState.assistant_transcripts ("r1", "i1", (0 : Int)) ∧
    ("xyz" ≠ "" →
      (handleEvent 1 cfg0 initialState (.transcriptDone "r1" "i1" 0 "xyz") []).2.1 =
        [Act.send (.assistantTranscript "xyz" "r1")]) ∧
    ("xyz" = "" →
      (handleEvent 1 cfg0 initialState (.transcriptDone "r1" "i1" 0 "xyz") []).2.1 =
        (if (dget initialState.assistant_transcripts ("r1", "i1", (0 : Int))).getD "" = "" then []
         else [Act.send (.assistantTranscript
            ((dget initialState.assistant_transcripts ("r1", "i1", (0 : Int))).getD "") "r1")])) ∧
    (handleEvent 1 cfg0 initialState (.transcriptDone "r1" "i1" 0 "xyz") []).2.2 = [] :=
  claim_C6_amended 0 cfg0 initialState "r1" "i1" 0 "xyz" [] (by decide)

/-! ## Claim C7 -/

/-- C7 counterexample: the claim states that a text delta for an
unknown response id leaves the accumulation table unchanged and
creates no entry.  It is false: from the empty table, a delta "x" for
the unknown id "r1" creates the entry ("r1", "x") — the handler uses
`get(response_id, "")` and assigns unconditionally. -/
theorem claim_C7_counterexample :
    initialState.assistant_text = [] ∧
    (handleEvent 1 cfg0 initialState (Event.responseTextDelta (some "r1") "x") []).1.assistant_text
      = [("r1", "x")] := by
  decide

/-- C7 amended: a text delta for a nonempty response id appends to the
existing buffer, treating a missing buffer as empty — so for an unknown
response id a fresh entry initialized to the delta is created; nothing
is sent to the client and the stream is not consumed.  Only events
whose response id is absent or empty are no-ops. -/
theorem claim_C7_amended (fuel : Nat) (cfg : VoiceLiveSettings) (st : BridgeState)
    (rid d : String) (rest : List Event) (h : rid ≠ "") :
    dget (handleEvent (fuel + 1) cfg st
        (.responseTextDelta (some rid) d) rest).1.assistant_text rid
      = some ((dget st.assistant_text rid).getD "" ++ d) ∧
    (handleEvent (fuel + 1) cfg st (.responseTextDelta (some rid) d) rest).2.1 = [] ∧
    (handleEvent (fuel + 1) cfg st (.responseTextDelta (some rid) d) rest).2.2 = rest := by
  rw [handleEvent_succ_nonItem fuel cfg st (.responseTextDelta (some rid) d) rest rfl]
  simp only [dispatchStep, if_neg h]
  exact ⟨dget_dset_self st.assistant_text rid _, trivial, trivial⟩

/-- C7 amended witness on the empty table. -/
theorem claim_C7_amended_witness :
    dget (handleEvent 1 cfg0 initialState
        (.responseTextDelta (some "r1") "x") []).1.assistant_text "r1"
      = some ((dget initialState.assistant_text "r1").getD "" ++ "x") ∧
    (handleEvent 1 cfg0 initialState (.responseTextDelta (some "r1") "x") []).2.1 = [] ∧
    (handleEvent 1 cfg0 initialState (.responseTextDelta (some "r1") "x") []).2.2 = [] :=
  claim_C7_amended 0 cfg0 initialState "r1" "x" [] (by decide)

/-! ## Claim C8 -/

/-- C8 counterexample: the claim states a generic fallback is used
whenever the event carries no message, and a message-less error is
never delivered.  It is false: when the error object is present but its
message is `None`, the handler forwards a `None` message — the fallback
applies only when the error object itself is absent. -/
theorem claim_C8_counterexample :
    (handleEvent 1 cfg0 initialState (Event.errorEvent (some none)) []).2.1 =
      [Act.send (.errorMsg none)] := by
  decide

/-- C8 amended: the remote error handler forwards the error message
verbatim when the error object is present (even if that message is
absent or empty), and uses the generic fallback exactly when the error
object itself is absent; the session state is unchanged. -/
theorem claim_C8_amended (fuel : Nat) (cfg : VoiceLiveSettings) (st : BridgeState)
    (err : Option (Option String)) (rest : List Event) :
    handleEvent (fuel + 1) cfg st (.errorEvent err) rest =
      (st, [Act.send (.errorMsg (err.getD (some "Voice assistant error")))], rest) := by
  rw [handleEvent_succ_nonItem fuel cfg st (.errorEvent err) rest rfl]
  cases err <;> simp [dispatchStep]

/-! ## Claim C9 -/

/-- C9: `get_current_weather` on an argument mapping echoes the
resolved location (default "Unknown") and unit (default "celsius"),
and reports temperature 22 when the resolved unit is "celsius" and 72
otherwise. -/
theorem claim_C9 (m : List (String × String)) :
    dget (get_current_weather (some (.map m))) "location" =
      some (JVal.s ((dget m "location").getD "Unknown")) ∧
    dget (get_current_weather (some (.map m))) "unit" =
      some (JVal.s ((dget m "unit").getD "celsius")) ∧
    dget (get_current_weather (some (.map m))) "temperature" =
      some (JVal.n (if (dget m "unit").getD "celsius" = "celsius" then (22 : Int) else 72)) := by
  simp [get_current_weather, weatherResult, dget]

/-! ## Claim C10 -/

/-- C10: an assistant-transcript delta whose composite key is invalid —
empty response id, empty item id, or negative output index — leaves the
state unchanged, sends nothing, and does not consume the stream. -/
theorem claim_C10 (fuel : Nat) (cfg : VoiceLiveSettings) (st : BridgeState)
    (rid iid : String) (idx : Int) (d : String) (rest : List Event)
    (h : rid = "" ∨ iid = "" ∨ idx < 0) :
    handleEvent (fuel + 1) cfg st (.transcriptDelta rid iid idx d) rest = (st, [], rest) := by
  rw [handleEvent_succ_nonItem fuel cfg st (.transcriptDelta rid iid idx d) rest rfl]
  by_cases hs : cfg.show_transcriptions
  · simp [dispatchStep, hs, h]
  · simp [dispatchStep, hs]

/-- C10 witness at a negative output index. -/
theorem claim_C10_witness :
    handleEvent 1 cfg0 initialState (.transcriptDelta "r1" "i1" (-1) "d") [] =
      (initialState, [], []) :=
  claim_C10 0 cfg0 initialState "r1" "i1" (-1) "d" [] (by decide)

end VoiceLive
